import Mathlib

/-!
A verification development for nanodjango's convert and defer subsystems.

The Python code is shallowly embedded:

* Python sets are modelled as duplicate-free lists (`insertS` inserts at the
  end if absent).  Python's `set.pop` removes an arbitrary element; we pop the
  head of the list.  Every theorem below is either order-independent
  (membership based) or is evaluated at states where each popped set is a
  singleton, so any pop order agrees with the model.
* Python dicts are modelled as association lists with in-place update.
* Mutable objects become explicit state records threaded through functions.
* Code that can raise returns `Except`/`Option`; an unbounded `while` loop
  takes a fuel argument and returns `none` when the fuel runs out (so real
  termination is distinguished from truncation).
-/

namespace Nanodjango

/-- Insert into a Python-set-as-list: no-op if present, else append. -/
def insertS (s : List String) (x : String) : List String :=
  if s.contains x then s else s ++ [x]

/-- Association-list lookup for string-keyed Python dicts. -/
def lookupStr {α : Type} : List (String × α) → String → Option α
  | [], _ => none
  | (k, v) :: rest, key => if k = key then some v else lookupStr rest key

/-- Association-list update for string-keyed Python dicts (`d[k] = v`). -/
def setStr {α : Type} : List (String × α) → String → α → List (String × α)
  | [], key, v => [(key, v)]
  | (k, w) :: rest, key, v =>
    if k = key then (key, v) :: rest else (k, w) :: setStr rest key v

namespace Defer

/-! ## `nanodjango/defer.py`

The deferred import machinery.  `__builtins__["__import__"]` is modelled as
the `import_hook` slot of a `World`; the caller's globals dict is the `ns`
field (all deferred imports in this development target that one namespace,
matching the single `caller_globals` capture in the code).  Real modules are
abstract: a `PyEnv` maps module names to an abstract value and an attribute
table, or marks the module as raising a plain `ImportError` on import.
-/

/-- A `DummyObject`: the placeholder bound in place of a deferred import. -/
structure DummyObject where
  name : String
  deriving Repr, DecidableEq

/-- Models `DummyObject.__getattr__`: attribute access returns a new placeholder
with the chained dotted name.  (`.name` itself is an instance attribute set
in `__init__`, so reading it returns the stored string, not a placeholder.) -/
def DummyObject.getattrD (d : DummyObject) (attr : String) : DummyObject :=
  ⟨d.name ++ "." ++ attr⟩

/-- Models `DeferredUsageError`, raised by `DummyObject._raise_error`. -/
inductive DeferredUsageError where
  | usedBeforeApply (name : String)
  deriving Repr, DecidableEq

/-- Models `DummyObject.__call__`: calling the placeholder raises
`DeferredUsageError` (it never performs an import). -/
def DummyObject.callD (d : DummyObject) : Except DeferredUsageError Unit :=
  .error (.usedBeforeApply d.name)

/-- Models `DummyObject.__str__` / `__repr__` / `__bool__` raise the same error. -/
def DummyObject.strD (d : DummyObject) : Except DeferredUsageError String :=
  .error (.usedBeforeApply d.name)

/-- A value held in a Python namespace: a placeholder, a real imported
object (abstract id), or `None`. -/
inductive Value where
  | dummyVal (d : DummyObject)
  | realVal (v : Nat)
  | noneVal
  deriving Repr, DecidableEq

/-- A module in the abstract import environment: either importable, with an
abstract value and attribute table, or one whose import raises a plain
`ImportError` (e.g. a circular import). -/
inductive ModuleDef where
  | modOk (asVal : Nat) (attrs : List (String × Nat))
  | brokenImport
  deriving Repr, DecidableEq

/-- The abstract Python import environment (what `original_import` sees). -/
structure PyEnv where
  modules : List (String × ModuleDef)
  deriving Repr, DecidableEq

/-- The kind of exception raised by a real import attempt. -/
inductive ImpErrKind where
  | moduleNotFound
  | attributeError
  | importError
  deriving Repr, DecidableEq

/-- Models `original_import(name, ...)`: resolve a module in the environment.
Returns its abstract value and attribute table, or the exception kind. -/
def PyEnv.importModule (env : PyEnv) (name : String) :
    Except ImpErrKind (Nat × List (String × Nat)) :=
  match lookupStr env.modules name with
  | none => .error .moduleNotFound
  | some .brokenImport => .error .importError
  | some (.modOk v attrs) => .ok (v, attrs)

/-- Models `DeferredImport`: one queued import statement.  `target_globals` is not
stored per-entry because this model has a single caller namespace. -/
structure DeferredImport where
  module_name : String
  line : String := ""
  alias_name : Option String := none
  from_name : Option String := none
  from_alias : Option String := none
  optional : Bool := false
  deriving Repr, DecidableEq

/-- Models `DeferredImport.name`: `from_alias or from_name or alias or module_name`. -/
def DeferredImport.nameD (d : DeferredImport) : String :=
  (d.from_alias.getD (d.from_name.getD (d.alias_name.getD d.module_name)))

/-- The name `_execute_import` binds: `from_alias or from_name` for a
from-import, else `alias or module_name`. -/
def DeferredImport.target_name (d : DeferredImport) : String :=
  match d.from_name with
  | some fn => d.from_alias.getD fn
  | none => d.alias_name.getD d.module_name

/-- The two possible values of the `__builtins__["__import__"]` slot. -/
inductive Hook where
  | originalImport
  | deferredHook
  deriving Repr, DecidableEq

/-- RuntimeErrors raised by the deferrer itself. -/
inductive RuntimeErr where
  | originalImportNone
  | notInContext
  | applyWhileActive
  deriving Repr, DecidableEq

/-- The mutable fields of the `ImportDeferrer` instance (`file_cache` is an
optimisation with no observable effect and is not modelled). -/
structure ImportDeferrer where
  active : Bool := false
  deferred_imports : List DeferredImport := []
  original_import : Option Hook := none
  caller_globals_captured : Bool := false
  optional_mode : Bool := false
  deriving Repr, DecidableEq

/-- The world the deferrer mutates: its own state, the current
`__import__` slot, and the caller's globals namespace. -/
structure World where
  deferrer : ImportDeferrer := {}
  import_hook : Hook := .originalImport
  ns : List (String × Value) := []
  deriving Repr, DecidableEq

/-- Models `ImportDeferrer.__enter__`: no-op while active, otherwise activate,
capture the caller's globals, save the current `__import__` and install the
deferred hook. -/
def World.enter (w : World) : World :=
  if w.deferrer.active then w
  else
    { w with
      deferrer :=
        { w.deferrer with
          active := true
          caller_globals_captured := true
          original_import := some w.import_hook }
      import_hook := .deferredHook }

/-- Models `ImportDeferrer.__exit__`: no-op when not active; otherwise restore the
saved `__import__` and deactivate (an internal RuntimeError if no
saved hook exists).  Deferred imports are not executed here. -/
def World.exitCM (w : World) : Except RuntimeErr World :=
  if !w.deferrer.active then .ok w
  else
    match w.deferrer.original_import with
    | none => .error .originalImportNone
    | some h =>
      .ok { w with import_hook := h, deferrer := { w.deferrer with active := false } }

/-- A parsed import statement: the outcome of `_extract_import` (bytecode
inspection, abstracted here) fed to `_parse_import_line` (which walks the
statement's syntax tree).  `importMod` is `import m [as a]`; `importFrom`
is `from m import n1 [as a1], n2 [as a2], ...`. -/
inductive ImportStmt where
  | importMod (module : String) (asname : Option String)
  | importFrom (module : String) (names : List (String × Option String))
  deriving Repr, DecidableEq

/-- The module name passed as the first argument to `__import__`. -/
def ImportStmt.moduleOf : ImportStmt → String
  | .importMod m _ => m
  | .importFrom m _ => m

/-- Render one `name [as alias]` element. -/
def renderAlias : String × Option String → String
  | (n, none) => n
  | (n, some a) => n ++ " as " ++ a

/-- The source text of the statement, as `_extract_import` reconstructs it. -/
def ImportStmt.lineOf : ImportStmt → String
  | .importMod m none => "import " ++ m
  | .importMod m (some a) => "import " ++ m ++ " as " ++ a
  | .importFrom m names =>
    "from " ++ m ++ " import " ++ String.intercalate ", " (names.map renderAlias)

/-- Models `_parse_import_line`: one `DeferredImport` kwargs record per imported
alias, each carrying the current `_optional_mode`. -/
def parseImportLine (optionalMode : Bool) (stmt : ImportStmt) : List DeferredImport :=
  match stmt with
  | .importMod m a =>
    [{ module_name := m, line := stmt.lineOf, alias_name := a, optional := optionalMode }]
  | .importFrom m names =>
    names.map fun na =>
      { module_name := m, line := stmt.lineOf, from_name := some na.1,
        from_alias := na.2, optional := optionalMode }

/-- Errors escaping `_deferred_import`. -/
inductive PyError where
  | runtime (e : RuntimeErr)
  | imp (k : ImpErrKind)
  deriving Repr, DecidableEq

/-- A real import of the statement's module, returning the module value. -/
def realImport (env : PyEnv) (name : String) : Except ImpErrKind Value :=
  match env.importModule name with
  | .error k => .error k
  | .ok (v, _) => .ok (.realVal v)

/-- Models `ImportDeferrer._deferred_import`: the replacement `__import__`.
Guards that a context was entered; falls through to the real import when
inactive or for the Python 3.13 standard-library special cases; otherwise
queues one `DeferredImport` per parsed alias and returns a placeholder named
after the module (no real import happens on this path). -/
def World.deferredImport (env : PyEnv) (w : World) (stmt : ImportStmt) :
    Except PyError (Value × World) :=
  if w.deferrer.original_import.isNone then .error (.runtime .notInContext)
  else if !w.deferrer.caller_globals_captured then .error (.runtime .notInContext)
  else if !w.deferrer.active then
    match realImport env stmt.moduleOf with
    | .error k => .error (.imp k)
    | .ok v => .ok (v, w)
  else if stmt.lineOf = "import os" ∨ stmt.lineOf = "import sys"
      ∨ stmt.lineOf = "import tokenize" then
    match realImport env stmt.moduleOf with
    | .error k => .error (.imp k)
    | .ok v => .ok (v, w)
  else
    let ds := parseImportLine w.deferrer.optional_mode stmt
    .ok (.dummyVal ⟨stmt.moduleOf⟩,
      { w with
        deferrer :=
          { w.deferrer with deferred_imports := w.deferrer.deferred_imports ++ ds } })

/-- Models `IMPORT_FROM` on the object returned by `__import__`.  While deferring,
that object is a placeholder, and `getattr` chains placeholders; the
real-module case belongs to the normal import flow, outside this model. -/
def importFromGetattr : Value → String → Option Value
  | .dummyVal d, attr => some (.dummyVal (d.getattrD attr))
  | _, _ => none

/-- Bytecode store semantics of the import statement around `__import__`:
bind the result under the bound name (alias if any), or each `IMPORT_FROM`
attribute for a from-import. -/
def bindImportResult (v : Value) (stmt : ImportStmt) (ns : List (String × Value)) :
    Option (List (String × Value)) :=
  match stmt with
  | .importMod m a => some (setStr ns (a.getD m) v)
  | .importFrom _ names =>
    names.foldlM
      (fun acc na =>
        match importFromGetattr v na.1 with
        | none => none
        | some attrVal => some (setStr acc (na.2.getD na.1) attrVal))
      ns

/-- An intercepted import statement executed while the hook is installed:
call `_deferred_import`, then store the result into the caller namespace. -/
def runImportStmt (env : PyEnv) (w : World) (stmt : ImportStmt) :
    Except PyError World :=
  match World.deferredImport env w stmt with
  | .error e => .error e
  | .ok (v, w') =>
    match bindImportResult v stmt w'.ns with
    | none => .error (.runtime .notInContext)
    | some ns' => .ok { w' with ns := ns' }

/-- The typed errors `_execute_import` raises for a failed
non-optional import, each wrapping the failed entry. -/
inductive DeferredError where
  | importErr (d : DeferredImport)
  | moduleNotFoundErr (d : DeferredImport)
  | attributeErr (d : DeferredImport)
  deriving Repr, DecidableEq

/-- The import attempt inside `_execute_import`, before exception handling:
resolve the module, and for a from-import also the attribute. -/
def importAttempt (env : PyEnv) (d : DeferredImport) : Except ImpErrKind Value :=
  match d.from_name with
  | some fn =>
    match env.importModule d.module_name with
    | .error k => .error k
    | .ok (_, attrs) =>
      match lookupStr attrs fn with
      | none => .error .attributeError
      | some v => .ok (.realVal v)
  | none =>
    match env.importModule d.module_name with
    | .error k => .error k
    | .ok (v, _) => .ok (.realVal v)

/-- Models `ImportDeferrer._execute_import`: run the attempt; on failure bind
`None` if the entry is optional, else raise the typed error matching the
original exception; on success (or optional failure) bind under
`target_name`. -/
def executeImport (env : PyEnv) (ns : List (String × Value)) (d : DeferredImport) :
    Except DeferredError (List (String × Value)) :=
  match importAttempt env d with
  | .ok v => .ok (setStr ns d.target_name v)
  | .error k =>
    if d.optional then .ok (setStr ns d.target_name .noneVal)
    else
      match k with
      | .moduleNotFound => .error (.moduleNotFoundErr d)
      | .attributeError => .error (.attributeErr d)
      | .importError => .error (.importErr d)

/-- The `for deferred in self.deferred_imports` loop of `apply()`: execute
entries in order; a raise aborts the loop, keeping the bindings made so far. -/
def applyLoop (env : PyEnv) (ns : List (String × Value)) :
    List DeferredImport → List (String × Value) × Option DeferredError
  | [] => (ns, none)
  | d :: rest =>
    match executeImport env ns d with
    | .ok ns' => applyLoop env ns' rest
    | .error e => (ns, some e)

/-- What `apply()` can raise. -/
inductive ApplyErr where
  | runtimeActive
  | deferredFail (e : DeferredError)
  deriving Repr, DecidableEq

/-- Models `ImportDeferrer.apply`: a RuntimeError while still active; otherwise
execute the queue in order.  Only after the whole loop finishes are the
queue and the captured globals cleared — an exception mid-loop leaves them
in place. -/
def World.applyD (env : PyEnv) (w : World) : World × Option ApplyErr :=
  if w.deferrer.active then (w, some .runtimeActive)
  else
    match applyLoop env w.ns w.deferrer.deferred_imports with
    | (ns', none) =>
      ({ w with
          ns := ns'
          deferrer :=
            { w.deferrer with deferred_imports := [], caller_globals_captured := false } },
        none)
    | (ns', some e) => ({ w with ns := ns' }, some (.deferredFail e))

/-- Entry half of the `optional` context manager: remember whether we were
already active (entering if not) and the previous `_optional_mode`, then set
`_optional_mode` to True. -/
def optionalBegin (w : World) : Bool × Bool × World :=
  let wasActive := w.deferrer.active
  let w := if wasActive then w else w.enter
  let oldMode := w.deferrer.optional_mode
  (wasActive, oldMode,
    { w with deferrer := { w.deferrer with optional_mode := true } })

/-- Exit half of the `optional` context manager: restore the previous
`_optional_mode`, and exit the deferrer if this scope entered it. -/
def optionalEnd (wasActive oldMode : Bool) (w : World) : Except RuntimeErr World :=
  let w := { w with deferrer := { w.deferrer with optional_mode := oldMode } }
  if !wasActive && w.deferrer.active then w.exitCM else .ok w

/-- The typed wrapper `_execute_import` raises for a non-optional failure. -/
def typedError (k : ImpErrKind) (d : DeferredImport) : DeferredError :=
  match k with
  | .moduleNotFound => .moduleNotFoundErr d
  | .attributeError => .attributeErr d
  | .importError => .importErr d

theorem executeImport_eq_typed (env : PyEnv) (ns : List (String × Value))
    (d : DeferredImport) (k : ImpErrKind) (hfail : importAttempt env d = .error k) :
    executeImport env ns d =
      (if d.optional then .ok (setStr ns d.target_name .noneVal)
       else .error (typedError k d)) := by
  unfold executeImport
  rw [hfail]
  cases k <;> rfl

theorem lookupStr_setStr_self {α : Type} (l : List (String × α)) (k : String) (v : α) :
    lookupStr (setStr l k v) k = some v := by
  induction l with
  | nil => simp [setStr, lookupStr]
  | cons p rest ih =>
    by_cases h : p.1 = k
    · simp [setStr, lookupStr, h]
    · simp [setStr, lookupStr, h, ih]

theorem executeImport_error_not_optional (env : PyEnv) (ns : List (String × Value))
    (d : DeferredImport) (e : DeferredError)
    (herr : executeImport env ns d = .error e) : d.optional = false := by
  unfold executeImport at herr
  cases h : importAttempt env d with
  | ok v => rw [h] at herr; exact absurd herr (by simp)
  | error k =>
    rw [h] at herr
    by_cases hopt : d.optional = true
    · rw [hopt] at herr; simp at herr
    · simpa using hopt

theorem applyLoop_error_split (env : PyEnv) :
    ∀ (l : List DeferredImport) (ns nsOut : List (String × Value)) (e : DeferredError),
    applyLoop env ns l = (nsOut, some e) →
    ∃ pre d post, l = pre ++ d :: post ∧ applyLoop env ns pre = (nsOut, none) ∧
      executeImport env nsOut d = .error e := by
  intro l
  induction l with
  | nil => intro ns nsOut e h; simp [applyLoop] at h
  | cons d rest ih =>
    intro ns nsOut e h
    unfold applyLoop at h
    cases hd : executeImport env ns d with
    | ok ns' =>
      rw [hd] at h
      obtain ⟨pre, d', post, hsplit, hloop, hexec⟩ := ih ns' nsOut e h
      refine ⟨d :: pre, d', post, by simp [hsplit], ?_, hexec⟩
      unfold applyLoop
      rw [hd]
      exact hloop
    | error e' =>
      rw [hd] at h
      simp only [Prod.mk.injEq, Option.some.injEq] at h
      obtain ⟨h1, h2⟩ := h
      subst h1
      subst h2
      exact ⟨[], d, rest, rfl, rfl, hd⟩

/-! ### C6 — nested enter/exit -/

/-- Starting world for the nested enter/exit scenario. -/
def c6_start : World := {}

/-- The observable outcome of the inner (first) exit after a nested
double entry. -/
def c6_afterInnerExit : Option World :=
  ((c6_start.enter).enter).exitCM.toOption

/-- C6 counterexample: after entering the deferrer twice (a nested
activation), the very first — inner, non-outermost — `__exit__` already
restores the original import hook and deactivates the deferrer, so the
claim that only the outermost exit restores normal import behaviour is
false on the code. -/
theorem c6_counterexample :
    c6_afterInnerExit.map (fun w => (w.deferrer.active, w.import_hook)) =
      some (false, Hook.originalImport) := by
  decide

/-- C6 (amended): re-entering while already active is a no-op; the FIRST
`__exit__` after activation — the innermost one in a nested block —
restores the previously saved import hook and deactivates the deferrer;
any further `__exit__` while inactive is a no-op. -/
theorem c6_amended :
    (∀ w : World, w.deferrer.active = true → w.enter = w) ∧
    (∀ w : World, w.deferrer.active = false →
      (w.enter).exitCM =
        .ok { w.enter with
              import_hook := w.import_hook
              deferrer := { w.enter.deferrer with active := false } }) ∧
    (∀ w : World, w.deferrer.active = false → w.exitCM = .ok w) := by
  refine ⟨?_, ?_, ?_⟩
  · intro w h
    unfold World.enter
    rw [h]
    simp
  · intro w h
    unfold World.enter World.exitCM
    rw [h]
    simp
  · intro w h
    unfold World.exitCM
    rw [h]
    simp

/-- Closed instances of the three amended C6 properties, obtained by
applying `c6_amended` at concrete worlds. -/
theorem c6_amended_witness :
    (World.enter { deferrer := { active := true } } =
      { deferrer := { active := true } }) ∧
    ((World.enter c6_start).exitCM =
      .ok { c6_start.enter with
            import_hook := c6_start.import_hook
            deferrer := { c6_start.enter.deferrer with active := false } }) ∧
    (World.exitCM c6_start = .ok c6_start) := by
  refine ⟨c6_amended.1 _ rfl, c6_amended.2.1 c6_start rfl, c6_amended.2.2 c6_start rfl⟩

/-! ### C7 — deferred import placeholder behaviour -/

/-- An environment in which the real module `json` exists, with abstract
module object `42`. -/
def envC7 : PyEnv := ⟨[("json", .modOk 42 [])]⟩

/-- The world after `with defer:` has been entered. -/
def w1C7 : World := World.enter {}

/-- The intercepted statement `import json`. -/
def jsonStmt : ImportStmt := .importMod "json" none

/-- The world after `import json` has been intercepted inside the scope. -/
def c7_run : Option World := (runImportStmt envC7 w1C7 jsonStmt).toOption

/-- Exit the scope and call `apply()`. -/
def c7_final : Option (World × Option ApplyErr) := do
  let w2 ← c7_run
  let w3 ← w2.exitCM.toOption
  return w3.applyD envC7

/-- C7: while the deferrer is active, an intercepted `import json` binds a
placeholder whose `.name` is exactly `"json"` into the target namespace;
no real import has occurred (the bound value is a placeholder and
the import is still queued); calling the placeholder raises the error;
and after `apply()` the same name holds the real module object. -/
theorem c7_placeholder :
    (c7_run.map fun w => lookupStr w.ns "json") =
        some (some (.dummyVal ⟨"json"⟩)) ∧
    (DummyObject.mk "json").name = "json" ∧
    DummyObject.callD ⟨"json"⟩ = .error (.usedBeforeApply "json") ∧
    (c7_run.map fun w => w.deferrer.deferred_imports) =
        some [{ module_name := "json", line := "import json" }] ∧
    (c7_final.map fun p => (lookupStr p.1.ns "json", p.2)) =
        some (some (.realVal 42), none) := by
  refine ⟨by decide, rfl, rfl, by decide, by decide⟩

/-! ### C8 — optional deferred import failure -/

/-- C8: for a deferrer that is no longer active and has exactly one
queued import whose real execution fails, `apply()` binds `None` under the
originally intended name and reports no error when the entry is optional,
and raises the typed deferred-import error matching the failure when it is
not. -/
theorem c8_optional_failure (env : PyEnv) (w : World) (d : DeferredImport)
    (k : ImpErrKind)
    (hact : w.deferrer.active = false)
    (hq : w.deferrer.deferred_imports = [d])
    (hfail : importAttempt env d = .error k) :
    (d.optional = true →
      (w.applyD env).2 = none ∧
      lookupStr (w.applyD env).1.ns d.target_name = some .noneVal) ∧
    (d.optional = false →
      (w.applyD env).2 = some (.deferredFail (typedError k d))) := by
  have hexec := executeImport_eq_typed env w.ns d k hfail
  constructor
  · intro hopt
    rw [hopt] at hexec
    simp only [if_true] at hexec
    unfold World.applyD
    rw [hact, hq]
    simp only [Bool.false_eq_true, if_false]
    unfold applyLoop
    rw [hexec]
    unfold applyLoop
    exact ⟨rfl, lookupStr_setStr_self _ _ _⟩
  · intro hopt
    rw [hopt] at hexec
    simp only [if_false, Bool.false_eq_true] at hexec
    unfold World.applyD
    rw [hact, hq]
    simp only [Bool.false_eq_true, if_false]
    unfold applyLoop
    rw [hexec]

/-- The environment for the C8 witness: no module `nope` exists. -/
def envC8 : PyEnv := ⟨[]⟩

/-- The queued optional import of the nonexistent module, as produced by an
interception inside `with defer.optional:`. -/
def dC8 : DeferredImport := { module_name := "nope", line := "import nope", optional := true }

/-- The non-optional variant of the same failed import. -/
def dC8n : DeferredImport := { module_name := "nope", line := "import nope" }

/-- The world after the optional deferred scope has exited, with `dC8`
queued. -/
def wC8 : World :=
  { deferrer := { deferred_imports := [dC8], caller_globals_captured := true,
                  original_import := some .originalImport } }

/-- Same world but with the import queued outside the optional scope. -/
def wC8n : World :=
  { deferrer := { deferred_imports := [dC8n], caller_globals_captured := true,
                  original_import := some .originalImport } }

/-- Closed instance of C8: applying the queue with the optional
failed entry binds `None` without raising; with the non-optional variant,
`apply()` raises the typed module-not-found error. -/
theorem c8_optional_failure_witness :
    ((wC8.applyD envC8).2 = none ∧
      lookupStr (wC8.applyD envC8).1.ns "nope" = some .noneVal) ∧
    (wC8n.applyD envC8).2 =
      some (.deferredFail (.moduleNotFoundErr dC8n)) := by
  constructor
  · exact (c8_optional_failure envC8 wC8 dC8 .moduleNotFound rfl rfl rfl).1 rfl
  · exact (c8_optional_failure envC8 wC8n dC8n .moduleNotFound rfl rfl rfl).2 rfl

/-! ### C9 — apply() error behaviour -/

/-- Environment for the C9 counterexample: no modules at all. -/
def envC9 : PyEnv := ⟨[]⟩

/-- An inactive deferrer with one queued non-optional import that will
fail. -/
def wC9 : World :=
  { deferrer := { deferred_imports := [{ module_name := "nope", line := "import nope" }] } }

/-- C9 counterexample: `apply()` raises even though the deferrer is not
active (the queued non-optional import fails), and afterwards the queue is
not empty — so "raises if and only if still active" and "afterwards the
queue is empty" are both false as stated. -/
theorem c9_counterexample :
    wC9.deferrer.active = false ∧
    (wC9.applyD envC9).2 ≠ none ∧
    (wC9.applyD envC9).1.deferrer.deferred_imports ≠ [] := by
  decide

/-- C9 (amended): `apply()` raises the cannot-apply-while-active
RuntimeError if and only if the deferrer is still active; when called while
inactive and every queued import executes without raising, it executes the
whole queue and afterwards the queue of deferred imports is empty. -/
theorem c9_amended (env : PyEnv) (w : World) :
    ((w.applyD env).2 = some .runtimeActive ↔ w.deferrer.active = true) ∧
    (w.deferrer.active = false →
      (applyLoop env w.ns w.deferrer.deferred_imports).2 = none →
      (w.applyD env).2 = none ∧
      (w.applyD env).1.deferrer.deferred_imports = []) := by
  constructor
  · constructor
    · intro h
      by_contra hact
      simp only [Bool.not_eq_true] at hact
      unfold World.applyD at h
      rw [hact] at h
      simp only [Bool.false_eq_true, if_false] at h
      cases hl : applyLoop env w.ns w.deferrer.deferred_imports with
      | mk ns' err =>
        rw [hl] at h
        cases err <;> simp_all
    · intro hact
      unfold World.applyD
      rw [hact]
      simp
  · intro hact hloop
    unfold World.applyD
    rw [hact]
    simp only [Bool.false_eq_true, if_false]
    cases hl : applyLoop env w.ns w.deferrer.deferred_imports with
    | mk ns' err =>
      rw [hl] at hloop
      have he : err = none := hloop
      subst he
      exact ⟨rfl, rfl⟩

/-- Closed instance of C9 (amended) at a world with a queued import that
succeeds: `apply()` does not raise the active-error (the deferrer is
inactive), and the queue is cleared. -/
theorem c9_amended_witness :
    (¬ ((wC8.applyD envC7).2 = some .runtimeActive) ∧
      wC8.deferrer.active = false) ∧
    ((wC8.applyD envC7).2 = none ∧
      (wC8.applyD envC7).1.deferrer.deferred_imports = []) := by
  have h := c9_amended envC7 wC8
  have h2 := h.2 rfl (by decide)
  exact ⟨⟨fun hc => absurd (h.1.mp hc) (by decide), rfl⟩, h2⟩

/-! ### C10 — apply() is not atomic on failure -/

/-- C10: when `apply()` on an inactive deferrer raises a deferred-import
error, the queue splits as `pre ++ failing :: rest`: every import queued
before the failing one executed and bound into the namespace (the final
namespace is exactly the one reached after `pre`), the failing entry is
non-optional, and the deferred-import queue is left exactly as it was —
nothing is cleared. -/
theorem c10_apply_not_atomic (env : PyEnv) (w : World) (e : DeferredError)
    (hact : w.deferrer.active = false)
    (herr : (w.applyD env).2 = some (.deferredFail e)) :
    (w.applyD env).1.deferrer.deferred_imports = w.deferrer.deferred_imports ∧
    ∃ pre d post nsPre,
      w.deferrer.deferred_imports = pre ++ d :: post ∧
      applyLoop env w.ns pre = (nsPre, none) ∧
      executeImport env nsPre d = .error e ∧
      (w.applyD env).1.ns = nsPre ∧
      d.optional = false := by
  unfold World.applyD at herr ⊢
  rw [hact] at herr ⊢
  simp only [Bool.false_eq_true, if_false] at herr ⊢
  cases hl : applyLoop env w.ns w.deferrer.deferred_imports with
  | mk ns' err =>
    rw [hl] at herr
    cases err with
    | none => simp at herr
    | some e' =>
      simp only [Option.some.injEq, ApplyErr.deferredFail.injEq] at herr
      subst herr
      obtain ⟨pre, d, post, hsplit, hloop, hexec⟩ :=
        applyLoop_error_split env _ _ _ _ hl
      exact ⟨rfl, pre, d, post, ns', hsplit, hloop, hexec, rfl,
        executeImport_error_not_optional env ns' d e' hexec⟩

/-- Environment for the C10 witness: `json` exists, `nope` does not. -/
def envC10 : PyEnv := ⟨[("json", .modOk 42 [])]⟩

/-- A queue whose first import succeeds and whose second fails. -/
def wC10 : World :=
  { deferrer := { deferred_imports :=
      [{ module_name := "json", line := "import json" },
       { module_name := "nope", line := "import nope" }] } }

/-- Closed instance of C10: applying `wC10`'s queue fails on the second
entry; the first has been bound, the namespace stops there, and the queue
is untouched. -/
theorem c10_apply_not_atomic_witness :
    (wC10.applyD envC10).1.deferrer.deferred_imports =
        wC10.deferrer.deferred_imports ∧
    ∃ pre d post nsPre,
      wC10.deferrer.deferred_imports = pre ++ d :: post ∧
      applyLoop envC10 wC10.ns pre = (nsPre, none) ∧
      executeImport envC10 nsPre d =
        .error (.moduleNotFoundErr { module_name := "nope", line := "import nope" }) ∧
      (wC10.applyD envC10).1.ns = nsPre ∧
      d.optional = false := by
  exact c10_apply_not_atomic envC10 wC10
    (.moduleNotFoundErr { module_name := "nope", line := "import nope" })
    rfl (by decide)

end Defer

namespace Convert

/-! ## `nanodjango/convert/converter.py` — `Resolver` and the unused-code stage

The converter is modelled by the state `gen_src`, `add_references` and
`build_app_unused` actually read and write: the module namespace entries
whose definition `collect_definition` can recover (`defs`, each carrying
its source text and the free references its syntax tree yields), the
cross-module import table `imports`, the `used` set and the app instance
name.
-/

/-- A collectable top-level definition: its source text (recovered through
live introspection or the script's syntax tree) and the free references
`collect_references` finds in it. -/
structure CDefn where
  src : String
  references : List String
  deriving Repr, DecidableEq

/-- The converter state the resolver interacts with. -/
structure Converter where
  defs : List (String × CDefn) := []
  imports : List (String × String) := []
  used : List String := []
  app_instance_name : String := "app"
  deriving Repr, DecidableEq

/-- Models `Converter.collect_definition`: source and references for a module
top-level name, marking it used; unknown or undeterminable symbols raise
`ValueError` (`none`).  (The `ensure_http_response` special case injects a
fixed helper and is not load-bearing for any claim.) -/
def Converter.collect_definition (c : Converter) (obj_name : String) :
    Option (String × List String × Converter) :=
  match lookupStr c.defs obj_name with
  | none => none
  | some d => some (d.src, d.references, { c with used := insertS c.used obj_name })

/-- Models `Resolver`: per-output-module name bookkeeping. -/
structure Resolver where
  module_name : String
  imports : List String := []
  local_refs : List String := []
  global_refs : List String := []
  deriving Repr, DecidableEq

/-- The import line recorded for a symbol defined in a module. -/
def import_line (module_name name : String) : String :=
  "from " ++ module_name ++ " import " ++ name

/-- Models `Resolver.add_object`: register a name defined in this module — record
its import line in the converter's cross-module table and mark it local.
(The name is NOT removed from `global_refs` if it was pending there.) -/
def Resolver.add_object (r : Resolver) (c : Converter) (name : String) :
    Resolver × Converter :=
  ({ r with local_refs := insertS r.local_refs name },
   { c with imports := setStr c.imports name (import_line r.module_name name) })

/-- Models `ref.split(".", 1)[0]`: the prefix up to the first dot. -/
def ref_base (ref : String) : String :=
  ((ref.toList.takeWhile fun ch => ch ≠ '.').asString)

/-- Models `Resolver.add_references`: for each reference's base name, skip it if
local, record its import line if importable, else queue it as a pending
global. -/
def Resolver.add_references (r : Resolver) (c : Converter) :
    List String → Resolver
  | [] => r
  | ref :: rest =>
    let rb := ref_base ref
    let r' :=
      if r.local_refs.contains rb then r
      else
        match lookupStr c.imports rb with
        | some line => { r with imports := insertS r.imports line }
        | none => { r with global_refs := insertS r.global_refs rb }
    Resolver.add_references r' c rest

/-- Models `Resolver.add`: register a definition and then its references. -/
def Resolver.add (r : Resolver) (c : Converter) (name : String)
    (references : List String) : Resolver × Converter :=
  let (r', c') := r.add_object c name
  (r'.add_references c' references, c')

/-- The `while self.global_refs` loop of `gen_src`: pop a pending global,
collect its definition, append the source, fold in the new references,
drop pending names that have become local, mark the popped name local and
record its import line for other modules.  Fuel bounds the loop; `none`
reports either fuel exhaustion or a `ValueError` from
`collect_definition`. -/
def gen_src_loop : Nat → Resolver → Converter → List String →
    Option (List String × Resolver × Converter)
  | 0, _, _, _ => none
  | fuel + 1, r, c, all_src =>
    match r.global_refs with
    | [] => some (all_src, r, c)
    | g :: rest =>
      let r := { r with global_refs := rest }
      match c.collect_definition g with
      | none => none
      | some (src, refs, c) =>
        let all_src := all_src ++ [src]
        let r := r.add_references c refs
        let r := { r with
          global_refs := r.global_refs.filter fun x => !r.local_refs.contains x }
        let r := { r with local_refs := insertS r.local_refs g }
        let c := { c with imports := setStr c.imports g (import_line r.module_name g) }
        gen_src_loop fuel r c all_src

/-- Models `Resolver.gen_src`: run the worklist from an empty source accumulator,
then restore `global_refs` to its value at entry and return the module's
recorded import lines followed by the copied-in sources (the code joins
them with newlines). -/
def Resolver.gen_src (fuel : Nat) (r : Resolver) (c : Converter) :
    Option (List String × Resolver × Converter) :=
  match gen_src_loop fuel r c [] with
  | none => none
  | some (all_src, r', c') =>
    some (r'.imports ++ all_src, { r' with global_refs := r.global_refs }, c')

/-- Just the generated lines of `gen_src`. -/
def Resolver.gen_src_out (fuel : Nat) (r : Resolver) (c : Converter) :
    Option (List String) :=
  (r.gen_src fuel c).map (·.1)

/-! ### C1 — resolution order of a dependency chain -/

/-- A converter whose module holds the acyclic chain `A` depends-on `B`
depends-on `C`, with the three source texts arbitrary. -/
def chainConverter (sa sb sc : String) : Converter :=
  { defs := [("A", ⟨sa, ["B"]⟩), ("B", ⟨sb, ["C"]⟩), ("C", ⟨sc, []⟩)] }

/-- A resolver with `A` queued as the unresolved global.  Every set popped
during resolution of this chain is a singleton, so Python's arbitrary
`set.pop` order coincides with the model's. -/
def chainResolver : Resolver :=
  { module_name := "myapp.views", global_refs := ["A"] }

/-- Tests whether `x` occurs strictly before `y` in `l`. -/
def precedesIn : List String → String → String → Bool
  | [], _, _ => false
  | a :: rest, x, y => if a = x then rest.contains y else precedesIn rest x y

/-- Concrete sources for the chain counterexample. -/
def srcA : String := "def A(request): return B(request)"

def srcB : String := "def B(request): return C(request)"

def srcC : String := "def C(request): return 1"

/-- C1 counterexample: on the chain A→B→C with A queued, `gen_src` emits
the sources in discovery order `[A, B, C]` — C's source does NOT come
before B's, nor B's before A's, so the claimed dependency order is false
on the code. -/
theorem c1_counterexample :
    Resolver.gen_src_out 4 chainResolver (chainConverter srcA srcB srcC) =
        some [srcA, srcB, srcC] ∧
    precedesIn [srcA, srcB, srcC] srcC srcB = false ∧
    precedesIn [srcA, srcB, srcC] srcB srcA = false := by
  refine ⟨by decide, by decide, by decide⟩

/-- C1 (amended): for an acyclic chain A depends-on B depends-on C with A
queued as the unresolved global, `gen_src` emits each copied-in definition
exactly once, in discovery order — A's source first, then B's, then C's
(the reverse of dependency order); the pop order is forced because every
intermediate unresolved set is a singleton. -/
theorem c1_amended (sa sb sc : String) :
    Resolver.gen_src_out 4 chainResolver (chainConverter sa sb sc) =
      some [sa, sb, sc] := by
  rfl

/-! ### C3 — the local/import/pending partition invariant -/

/-- One resolver registration step, as performed by the model/view/admin/
api/unused build stages. -/
inductive ROp where
  | addObject (name : String)
  | addRefs (refs : List String)
  | addDef (name : String) (refs : List String)
  deriving Repr, DecidableEq

/-- Run one registration step. -/
def runOp (rc : Resolver × Converter) : ROp → Resolver × Converter
  | .addObject n => rc.1.add_object rc.2 n
  | .addRefs refs => (rc.1.add_references rc.2 refs, rc.2)
  | .addDef n refs => rc.1.add rc.2 n refs

/-- Run a sequence of registration steps. -/
def runOps (rc : Resolver × Converter) : List ROp → Resolver × Converter
  | [] => rc
  | op :: rest => runOps (runOp rc op) rest

/-- No name is in both `local_refs` and `global_refs`. -/
def disjointRefs (r : Resolver) : Bool :=
  r.local_refs.all fun x => !r.global_refs.contains x

/-- Every `add_object`/`add` in the sequence targets a name that is not
pending in `global_refs` at the moment the step runs. -/
def freshOps : Resolver × Converter → List ROp → Bool
  | _, [] => true
  | rc, op :: rest =>
    (match op with
     | .addObject n => !rc.1.global_refs.contains n
     | .addDef n _ => !rc.1.global_refs.contains n
     | .addRefs _ => true) && freshOps (runOp rc op) rest

/-- A fresh resolver for the `.unused` module paired with an empty
converter. -/
def rcStart : Resolver × Converter := ({ module_name := ".unused" }, {})

/-- C3 counterexample: after `add_references({"helper"})` followed by
`add("helper", ...)` — exactly the pattern `build_app_unused` performs when
one unused object references another — the name `helper` is simultaneously
in `local_refs` and in `global_refs`, so the claimed exclusive partition is
false on the code. -/
theorem c3_counterexample :
    ((runOps rcStart [.addRefs ["helper"], .addDef "helper" []]).1.local_refs.contains
        "helper") = true ∧
    ((runOps rcStart [.addRefs ["helper"], .addDef "helper" []]).1.global_refs.contains
        "helper") = true := by
  refine ⟨by decide, by decide⟩

theorem mem_insertS {l : List String} {x y : String} :
    y ∈ insertS l x ↔ y ∈ l ∨ y = x := by
  unfold insertS
  split
  · rename_i hc
    constructor
    · exact Or.inl
    · intro hy
      cases hy with
      | inl h' => exact h'
      | inr h' => subst h'; simpa using hc
  · simp

theorem disjointRefs_iff (r : Resolver) :
    disjointRefs r = true ↔ ∀ x ∈ r.local_refs, x ∉ r.global_refs := by
  simp [disjointRefs]

theorem add_references_disjoint (c : Converter) :
    ∀ (refs : List String) (r : Resolver), disjointRefs r = true →
      disjointRefs (r.add_references c refs) = true := by
  intro refs
  induction refs with
  | nil => intro r h; exact h
  | cons ref rest ih =>
    intro r h
    unfold Resolver.add_references
    apply ih
    by_cases hloc : r.local_refs.contains (ref_base ref) = true
    · simp only [hloc, if_true]
      exact h
    · simp only [Bool.not_eq_true] at hloc
      simp only [hloc, Bool.false_eq_true, if_false]
      cases himp : lookupStr c.imports (ref_base ref) with
      | some line => exact h
      | none =>
        rw [disjointRefs_iff] at h ⊢
        intro x hx
        simp only [mem_insertS]
        rintro (hg | hg)
        · exact h x hx hg
        · subst hg
          have hc : r.local_refs.contains (ref_base ref) = true := by simpa using hx
          rw [hloc] at hc
          exact Bool.false_ne_true hc

theorem add_object_disjoint (c : Converter) (r : Resolver) (n : String)
    (hfresh : n ∉ r.global_refs)
    (h : disjointRefs r = true) :
    disjointRefs (r.add_object c n).1 = true := by
  unfold Resolver.add_object
  rw [disjointRefs_iff] at h ⊢
  intro x hx
  rw [mem_insertS] at hx
  cases hx with
  | inl hx => exact h x hx
  | inr hx => subst hx; exact hfresh

/-- C3 (amended): the exclusive local/pending partition does hold for every
registration sequence in which `add`/`add_object` is only applied to names
not already pending in `global_refs`: then no name is ever simultaneously
in `local_refs` and `global_refs`.  (Without that proviso the partition
fails — see the counterexample — and `gen_src` deliberately restores
`global_refs` on exit, after which every resolved name is in both.) -/
theorem c3_amended :
    ∀ (ops : List ROp) (rc : Resolver × Converter),
      disjointRefs rc.1 = true → freshOps rc ops = true →
      disjointRefs (runOps rc ops).1 = true := by
  intro ops
  induction ops with
  | nil => intro rc h _; exact h
  | cons op rest ih =>
    intro rc h hfresh
    unfold freshOps at hfresh
    rw [Bool.and_eq_true] at hfresh
    unfold runOps
    apply ih _ _ hfresh.2
    cases op with
    | addObject n =>
      have hn : n ∉ rc.1.global_refs := by simpa using hfresh.1
      exact add_object_disjoint rc.2 rc.1 n hn h
    | addRefs refs =>
      exact add_references_disjoint rc.2 refs rc.1 h
    | addDef n refs =>
      have hn : n ∉ rc.1.global_refs := by simpa using hfresh.1
      unfold runOp Resolver.add
      apply add_references_disjoint
      exact add_object_disjoint rc.2 rc.1 n hn h

/-- Closed instance of C3 (amended): a fresh-names registration sequence
keeps `local_refs` and `global_refs` disjoint. -/
theorem c3_amended_witness :
    disjointRefs (runOps rcStart
      [.addDef "view_a" ["helper"], .addDef "other" ["view_a"],
       .addRefs ["models"]]).1 = true := by
  exact c3_amended _ rcStart (by decide) (by decide)

/-! ### C2 — unused-code completeness (`Converter.build_app_unused`)

The module's `__dict__` is modelled by `defs` (the collectable part of the
namespace); plugin hooks are the no-plugin default (identity, with
`extra_src = []`); the headers, newline joining and the formatter applied
by `write_file` are abstracted away, the claim being about which sources
appear at all.
-/

/-- Models `obj_name.startswith("_")`. -/
def startswith_underscore (s : String) : Bool :=
  match s.toList with
  | [] => false
  | ch :: _ => ch = '_'

/-- Models `self.used` after `build_app_unused` folds in the import table's keys
and the app instance name (`self.used.update(self.imports.keys())`;
`self.used.add(self.app._instance_name)`). -/
def Converter.used_after_imports (c : Converter) : List String :=
  insertS (c.imports.foldl (fun acc p => insertS acc p.1) c.used) c.app_instance_name

/-- Models `unused = set(self.module.__dict__.keys()) - self.used` (after the two
updates above).  Python iterates this set in arbitrary order; all
properties proved about it are membership-based. -/
def Converter.unused_names (c : Converter) : List String :=
  let used := c.used_after_imports
  (c.defs.map (·.1)).filter fun n => !used.contains n

/-- The `for obj_name in unused` loop: skip names starting with an
underscore; collect each remaining definition's source (a `ValueError`
propagates as `none`), append it to `all_src`, and register it with the
stage's resolver. -/
def unused_loop (r : Resolver) (c : Converter) (all_src : List String) :
    List String → Option (List String × Resolver × Converter)
  | [] => some (all_src, r, c)
  | n :: rest =>
    if startswith_underscore n then unused_loop r c all_src rest
    else
      match c.collect_definition n with
      | none => none
      | some (src, refs, c') =>
        let rc := Resolver.add r c' n refs
        unused_loop rc.1 rc.2 (all_src ++ [src]) rest

/-- Models `Converter.build_app_unused`: update `used`, run the collection loop
over the unused names, and — since the default plugin hook returns
`extra_src = []`, making `if not all_src or extra_src: return` reduce to
`if not all_src: return` — write the file exactly when `all_src` is
nonempty, as the resolver's `gen_src` output followed by the collected
sources.  `some none` is a run that writes no file. -/
def Converter.build_app_unused (fuel : Nat) (c0 : Converter) :
    Option (Option (List String × List String)) :=
  let c := { c0 with used := c0.used_after_imports }
  match unused_loop { module_name := ".unused" } c [] c0.unused_names with
  | none => none
  | some (all_src, r, c') =>
    if all_src.isEmpty then some none
    else
      match r.gen_src fuel c' with
      | none => none
      | some (gen_out, _, _) => some (some (gen_out, all_src))

/-- The C2 counterexample module: the app instance, one unused helper, and
one unused private assignment `_secret = 1`. -/
def cC2 : Converter :=
  { defs := [("app", ⟨"app = Django()", []⟩),
             ("tool", ⟨"def tool(request): return 1", []⟩),
             ("_secret", ⟨"_secret = 1", []⟩)] }

/-- C2 counterexample: `_secret` is a top-level name of the module that no
stage consumed and that is not an import, yet the generated `unused.py`
content contains only `tool`'s source — `_secret = 1` is silently dropped
because the loop skips names starting with an underscore.  So the claim
that every such name appears is false on the code. -/
theorem c2_counterexample :
    cC2.build_app_unused 4 = some (some ([], ["def tool(request): return 1"])) ∧
    "_secret" ∈ cC2.unused_names ∧
    "_secret = 1" ∉ ([] ++ ["def tool(request): return 1"] : List String) := by
  refine ⟨by decide, by decide, by decide⟩

theorem collect_definition_defs (c : Converter) (n src : String)
    (refs : List String) (c' : Converter)
    (h : c.collect_definition n = some (src, refs, c')) : c'.defs = c.defs := by
  unfold Converter.collect_definition at h
  cases hl : lookupStr c.defs n with
  | none => rw [hl] at h; cases h
  | some d =>
    rw [hl] at h
    simp only [Option.some.injEq, Prod.mk.injEq] at h
    rw [← h.2.2]

theorem collect_definition_lookup (c : Converter) (n src : String)
    (refs : List String) (c' : Converter)
    (h : c.collect_definition n = some (src, refs, c')) :
    lookupStr c.defs n = some ⟨src, refs⟩ := by
  unfold Converter.collect_definition at h
  cases hl : lookupStr c.defs n with
  | none => rw [hl] at h; cases h
  | some d =>
    rw [hl] at h
    simp only [Option.some.injEq, Prod.mk.injEq] at h
    rw [← h.1, ← h.2.1]

theorem unused_loop_src_mono :
    ∀ (ns : List String) (r : Resolver) (c : Converter) (all_src : List String)
      (res : List String × Resolver × Converter),
      unused_loop r c all_src ns = some res → ∀ s ∈ all_src, s ∈ res.1 := by
  intro ns
  induction ns with
  | nil =>
    intro r c all_src res h s hs
    unfold unused_loop at h
    cases h
    exact hs
  | cons n rest ih =>
    intro r c all_src res h s hs
    unfold unused_loop at h
    by_cases hu : startswith_underscore n = true
    · rw [hu] at h
      simp only [if_true] at h
      exact ih _ _ _ _ h s hs
    · simp only [Bool.not_eq_true] at hu
      rw [hu] at h
      simp only [Bool.false_eq_true, if_false] at h
      cases hc : c.collect_definition n with
      | none => rw [hc] at h; cases h
      | some t =>
        rw [hc] at h
        exact ih _ _ _ _ h s (by simp [hs])

theorem unused_loop_complete :
    ∀ (ns : List String) (r : Resolver) (c : Converter) (all_src : List String)
      (res : List String × Resolver × Converter),
      unused_loop r c all_src ns = some res →
      ∀ n ∈ ns, startswith_underscore n = false →
        ∃ d, lookupStr c.defs n = some d ∧ d.src ∈ res.1 := by
  intro ns
  induction ns with
  | nil => intro r c all_src res h n hn; cases hn
  | cons n' rest ih =>
    intro r c all_src res h n hn hnu
    unfold unused_loop at h
    by_cases hu : startswith_underscore n' = true
    · rw [hu] at h
      simp only [if_true] at h
      cases hn with
      | head => rw [hnu] at hu; cases hu
      | tail _ hn => exact ih _ _ _ _ h n hn hnu
    · simp only [Bool.not_eq_true] at hu
      rw [hu] at h
      simp only [Bool.false_eq_true, if_false] at h
      cases hc : c.collect_definition n' with
      | none => rw [hc] at h; cases h
      | some t =>
        obtain ⟨src, refs, c'⟩ := t
        rw [hc] at h
        simp only at h
        have hdefs : (Resolver.add r c' n' refs).2.defs = c.defs := by
          have h1 : (Resolver.add r c' n' refs).2.defs = c'.defs := rfl
          rw [h1, collect_definition_defs c n' src refs c' hc]
        cases hn with
        | head =>
          refine ⟨⟨src, refs⟩, collect_definition_lookup c n' src refs c' hc, ?_⟩
          exact unused_loop_src_mono _ _ _ _ _ h src (by simp)
        | tail _ hn =>
          obtain ⟨d, hd, hds⟩ := ih _ _ _ _ h n hn hnu
          rw [hdefs] at hd
          exact ⟨d, hd, hds⟩

/-- C2 (amended): every top-level name of the module that was not consumed
by any stage, is not an import, and does NOT start with an underscore has
its collected source included in the generated `unused.py` content — the
underscore-prefixed names are the (deliberate) exception to the claimed
completeness. -/
theorem c2_amended (fuel : Nat) (c : Converter) (genOut allSrc : List String)
    (h : c.build_app_unused fuel = some (some (genOut, allSrc))) :
    ∀ n ∈ c.unused_names, startswith_underscore n = false →
      ∃ d, lookupStr c.defs n = some d ∧ d.src ∈ allSrc := by
  intro n hn hnu
  unfold Converter.build_app_unused at h
  dsimp only at h
  cases hl : unused_loop { module_name := ".unused" }
      { c with used := c.used_after_imports } [] c.unused_names with
  | none => rw [hl] at h; cases h
  | some res =>
    obtain ⟨all_src, r, c'⟩ := res
    rw [hl] at h
    simp only at h
    by_cases he : all_src.isEmpty = true
    · rw [he] at h
      simp at h
    · simp only [Bool.not_eq_true] at he
      rw [he] at h
      simp only [Bool.false_eq_true, if_false] at h
      cases hg : Resolver.gen_src fuel r c' with
      | none => rw [hg] at h; cases h
      | some g =>
        obtain ⟨gen_out, r', c''⟩ := g
        rw [hg] at h
        simp only [Option.some.injEq, Prod.mk.injEq] at h
        obtain ⟨d, hd, hds⟩ :=
          unused_loop_complete c.unused_names _ _ _ _ hl n hn hnu
        exact ⟨d, hd, by rw [← h.2]; exact hds⟩

/-- Closed instance of C2 (amended): in the counterexample module, the
non-underscore unused name `tool` does appear in the generated content. -/
theorem c2_amended_witness :
    ∃ d, lookupStr cC2.defs "tool" = some d ∧
      d.src ∈ ["def tool(request): return 1"] := by
  exact c2_amended 4 cC2 [] ["def tool(request): return 1"] (by decide)
    "tool" (by decide) (by decide)

end Convert

namespace Reference

/-! ## `nanodjango/convert/reference.py` — `ReferenceVisitor`

A shallow embedding of the visitor over the Python AST constructs it
handles that the claims exercise: function definitions, assignments,
`global` statements, names, attributes, calls, tuples, walrus assignments,
and the four comprehension forms.  Node classes without a `visit_*` method
follow `generic_visit` (visit children in field order), exactly as
`ast.NodeVisitor` dispatches.  The visitor functions carry fuel; the
inputs proved about are tiny, so fuel only rules out non-structural
recursion.
-/

/-- Python expression contexts. -/
inductive Ctx where
  | load
  | store
  | del_
  deriving Repr, DecidableEq

mutual

/-- The expression subset of the Python AST handled here. -/
inductive Expr where
  | name (id : String) (ctx : Ctx)
  | constE
  | attributeE (value : Expr) (attr : String) (ctx : Ctx)
  | call (func : Expr) (args : List Expr)
  | tupleE (elts : List Expr) (ctx : Ctx)
  | namedExpr (target : Expr) (value : Expr)
  | listComp (elt : Expr) (generators : List Comprehension)
  | setComp (elt : Expr) (generators : List Comprehension)
  | generatorExp (elt : Expr) (generators : List Comprehension)
  | dictComp (key : Expr) (value : Expr) (generators : List Comprehension)

/-- An `ast.comprehension` clause: `for target in iter if ifs*`.
(Fields in AST order: target, iter, ifs.) -/
inductive Comprehension where
  | mk (target : Expr) (iter : Expr) (ifs : List Expr)

end

/-- The statement subset of the Python AST handled here.  Function
arguments are flattened to their names (`args + kwonlyargs + vararg +
kwarg`), as `visit_FunctionDef` itself does. -/
inductive Stmt where
  | functionDef (name : String) (args : List String) (body : List Stmt)
      (decorator_list : List Expr)
  | assign (targets : List Expr) (value : Expr)
  | globalStmt (names : List String)
  | returnStmt (value : Option Expr)
  | exprStmt (value : Expr)

/-- Visitor state: the scope stack (head = `current_scope`, each scope a
set of names) and the set of global names referenced.  `globals_lookup`
(back-references from names to AST nodes) has no bearing on any claim and
is not modelled. -/
structure VState where
  locals_stack : List (List String)
  globals_ref : List String
  deriving Repr, DecidableEq

/-- Models `self.current_scope.add(name)`. -/
def VState.current_add (s : VState) (n : String) : VState :=
  match s.locals_stack with
  | [] => s
  | sc :: rest => { s with locals_stack := insertS sc n :: rest }

/-- Models `push_scope`: push a copy of the current scope. -/
def VState.push (s : VState) : VState :=
  match s.locals_stack with
  | [] => s
  | sc :: rest => { s with locals_stack := sc :: sc :: rest }

/-- Models `pop_scope`. -/
def VState.pop (s : VState) : VState :=
  match s.locals_stack with
  | [] => s
  | _ :: rest => { s with locals_stack := rest }

/-- Models `ref in self.local_scopes` (the union of all scopes on the stack). -/
def VState.inScopes (s : VState) (n : String) : Bool :=
  s.locals_stack.any fun sc => sc.contains n

/-- A finite stand-in for Python's `__builtins__` membership test. -/
def py_builtins : List String :=
  ["print", "len", "range", "isinstance", "issubclass", "getattr", "setattr",
   "hasattr", "str", "int", "float", "bool", "list", "dict", "set", "tuple",
   "bytes", "frozenset", "type", "super", "object", "enumerate", "zip", "map",
   "filter", "sorted", "reversed", "open", "repr", "iter", "next", "vars",
   "dir", "id", "hash", "abs", "min", "max", "sum", "all", "any", "callable",
   "format", "globals", "locals", "property", "staticmethod", "classmethod",
   "Exception", "ValueError", "TypeError", "AttributeError", "KeyError",
   "IndexError", "RuntimeError", "ImportError", "StopIteration",
   "NotImplementedError"]

/-- The argument `found_reference` receives: some call sites pass an
expression node, `visit_Global` passes the `ast.Global` statement itself. -/
inductive VNode where
  | ofExpr (e : Expr)
  | ofStmt (st : Stmt)

/-- Reading `node.id`: only a Name expression has an `id` attribute; on any
other node the access raises `AttributeError`. -/
def VNode.getId : VNode → Option String
  | .ofExpr (.name id _) => some id
  | _ => none

/-- Exceptions escaping a visit. -/
inductive VisitError where
  | attributeError
  | outOfFuel
  deriving Repr, DecidableEq

/-- Models `found_reference`: read `node.id` (AttributeError if the node is not a
Name), return early for builtins, and record the name as a global
reference when it is not in any local scope. -/
def found_reference (node : VNode) (s : VState) : Except VisitError VState :=
  match node.getId with
  | none => .error .attributeError
  | some ref =>
    if py_builtins.contains ref then .ok s
    else if s.inScopes ref then .ok s
    else .ok { s with globals_ref := insertS s.globals_ref ref }

/-- Models `visit_Assign`'s binding pass over one target: add plain-Name targets
and the Name elements of tuple targets to the current scope. -/
def assignTarget (s : VState) (t : Expr) : VState :=
  match t with
  | .name id _ => s.current_add id
  | .tupleE elts _ =>
    elts.foldl
      (fun s e =>
        match e with
        | Expr.name id _ => s.current_add id
        | _ => s)
      s
  | _ => s

mutual

/-- Visit one expression (`visit` dispatch on expression nodes). -/
def visitExpr : Nat → VState → Expr → Except VisitError VState
  | 0, _, _ => .error .outOfFuel
  | fuel + 1, s, e =>
    match e with
    | .name id ctx =>
      -- visit_Name: record only Load contexts
      match ctx with
      | .load => found_reference (.ofExpr (.name id ctx)) s
      | _ => .ok s
    | .constE => .ok s
    | .attributeE v _ _ =>
      -- visit_Attribute: record a Name value, then visit the value
      match v with
      | .name id c => do
        let s ← found_reference (.ofExpr (.name id c)) s
        visitExpr fuel s (.name id c)
      | _ => visitExpr fuel s v
    | .call f args => do
      -- no visit_Call: generic_visit in field order (func, args)
      let s ← visitExpr fuel s f
      visitExprList fuel s args
    | .tupleE elts _ =>
      -- no visit_Tuple: generic_visit
      visitExprList fuel s elts
    | .namedExpr t v =>
      -- visit_NamedExpr: bind a Name target, then visit the value
      let s' :=
        match t with
        | Expr.name id _ => s.current_add id
        | _ => s
      visitExpr fuel s' v
    | .listComp elt gens => do
      -- visit_ListComp: own scope, visit generators then elt
      let s1 := s.push
      let s2 ← visitComps fuel s1 gens
      let s3 ← visitExpr fuel s2 elt
      .ok s3.pop
    | .setComp elt gens => do
      let s1 := s.push
      let s2 ← visitComps fuel s1 gens
      let s3 ← visitExpr fuel s2 elt
      .ok s3.pop
    | .generatorExp elt gens => do
      let s1 := s.push
      let s2 ← visitComps fuel s1 gens
      let s3 ← visitExpr fuel s2 elt
      .ok s3.pop
    | .dictComp k v gens => do
      -- visit_DictComp: own scope, generators, key, value
      let s1 := s.push
      let s2 ← visitComps fuel s1 gens
      let s3 ← visitExpr fuel s2 k
      let s4 ← visitExpr fuel s3 v
      .ok s4.pop

/-- Visit a list of expressions in order. -/
def visitExprList : Nat → VState → List Expr → Except VisitError VState
  | 0, _, _ => .error .outOfFuel
  | _ + 1, s, [] => .ok s
  | fuel + 1, s, e :: rest => do
    let s ← visitExpr fuel s e
    visitExprList fuel s rest

/-- Visit one `ast.comprehension` clause: there is no
`visit_comprehension` method, so `generic_visit` visits target, iter and
ifs in field order — in particular the Store-context target binds
nothing. -/
def visitComp : Nat → VState → Comprehension → Except VisitError VState
  | 0, _, _ => .error .outOfFuel
  | fuel + 1, s, .mk target iter ifs => do
    let s ← visitExpr fuel s target
    let s ← visitExpr fuel s iter
    visitExprList fuel s ifs

/-- Visit the generator clauses in order. -/
def visitComps : Nat → VState → List Comprehension → Except VisitError VState
  | 0, _, _ => .error .outOfFuel
  | _ + 1, s, [] => .ok s
  | fuel + 1, s, g :: rest => do
    let s ← visitComp fuel s g
    visitComps fuel s rest

/-- Visit one statement (`visit` dispatch on statement nodes). -/
def visitStmt : Nat → VState → Stmt → Except VisitError VState
  | 0, _, _ => .error .outOfFuel
  | fuel + 1, s, st =>
    match st with
    | .functionDef name args body decorators => do
      -- visit_FunctionDef: bind the function name, push a scope, bind the
      -- arguments, visit the decorators, then generic_visit (which visits
      -- the body and the decorator list a second time), then pop
      let s := s.current_add name
      let s := s.push
      let s := args.foldl VState.current_add s
      let s ← visitExprList fuel s decorators
      let s ← visitStmtList fuel s body
      let s ← visitExprList fuel s decorators
      .ok s.pop
    | .assign targets value => do
      -- visit_Assign: bind targets, then generic_visit (targets, value)
      let s := targets.foldl assignTarget s
      let s ← visitExprList fuel s targets
      visitExpr fuel s value
    | .globalStmt names =>
      -- visit_Global: `for name in node.names: self.found_reference(node)`
      -- — the whole Global statement node is passed, not the name
      names.foldlM (fun acc _ => found_reference (.ofStmt (.globalStmt names)) acc) s
    | .returnStmt none => .ok s
    | .returnStmt (some e) => visitExpr fuel s e
    | .exprStmt e => visitExpr fuel s e

/-- Visit a list of statements in order. -/
def visitStmtList : Nat → VState → List Stmt → Except VisitError VState
  | 0, _, _ => .error .outOfFuel
  | _ + 1, s, [] => .ok s
  | fuel + 1, s, st :: rest => do
    let s ← visitStmt fuel s st
    visitStmtList fuel s rest

end

/-- A fresh visitor: `locals_stack = [set()]`, no globals yet. -/
def initVState : VState := { locals_stack := [[]], globals_ref := [] }

/-- Models `collect_references` from `convert/utils.py`: run a fresh visitor over
the object's node and return its `globals_ref`. -/
def collect_references (fuel : Nat) (node : Stmt) :
    Except VisitError (List String) :=
  (visitStmt fuel initVState node).map (·.globals_ref)

/-! ### C4 — comprehension loop variables -/

/-- Models `def f(): return [x for x in data]`. -/
def c4_input : Stmt :=
  .functionDef "f" []
    [.returnStmt (some (.listComp (.name "x" .load)
      [Comprehension.mk (.name "x" .store) (.name "data" .load) []]))]
    []

/-- C4, evaluated at the failing input: visiting
`def f(): return [x for x in data]` reports BOTH `data` and the
comprehension's loop variable `x` as free references — the pushed
comprehension scope never receives the Store-context target, so the claim
that a comprehension loop variable is not reported as a free reference is
violated by the code (the variable does not leak as a binding, but it does
leak as a reported global). -/
theorem c4_loop_var_reported :
    collect_references 32 c4_input = .ok ["data", "x"] := by
  rfl

/-! ### C5 — explicit `global` statements -/

/-- Models `def f(): global x`. -/
def c5_input : Stmt :=
  .functionDef "f" [] [.globalStmt ["x"]] []

/-- C5, evaluated at the failing input: visiting `def f(): global x` does
not record `x` — `visit_Global` passes the `ast.Global` statement node to
`found_reference`, whose `node.id` access raises `AttributeError`, so the
visit aborts instead of completing with `x` in `globals_ref`. -/
theorem c5_global_crashes :
    collect_references 32 c5_input = .error .attributeError := by
  rfl

end Reference

end Nanodjango
